import Mathlib

/-!
# Detection pipeline of `src/app/page.js`

A shallow embedding of the `Home` component's detection pipeline: the two
throttles (`playRing`, the snapshot gate inside `detectFrame`), the overlay
drawing loop of `detectFrame`, and `toggleDetecting`.

Modelling conventions.

* `Date.now()` values are integers (milliseconds); the two clock reads of a
  completing tick (line 128 in `detectFrame`, line 41 in `playRing`) are two
  separate inputs.
* Bounding-box coordinates are integers (pixel coordinates).
* `detectFrame` is an `async` function with a single `await`
  (`model.detect`, line 88).  It is split at that point into
  `detectFrameStart` (lines 86-88) and `detectFrameResume` (lines 89-137);
  the detector's answer is an `Except`: `.error` is a rejected promise.
* React state (`personCount`, `detecting`, `status`) and refs
  (`detectingRef`, `lastPlayedRef`, `lastSnapshotRef`) are fields of one
  record; the overlay canvas is the list of drawing operations issued since
  it was last blanked.
-/

namespace VisionDetector

/-- One entry of the array returned by `model.detect`. -/
structure Prediction where
  /-- The `bbox` array `[x, y, width, height]`. -/
  bbox : Int × Int × Int × Int
  /-- The `class` field. -/
  cls : String
  /-- The `score` field. -/
  score : ℚ
  deriving DecidableEq, Repr

/-- Calls made on the overlay's 2D context inside the `forEach` body.
`fillText label score x y` stands for drawing the template string made of the
label, a blank, `(score * 100).toFixed(1)` and a percent sign. -/
inductive CanvasOp where
  | strokeStyle (v : String)
  | lineWidth (v : Nat)
  | setLineDash (v : List Nat)
  | strokeRect (x y w h : Int)
  | shadowColor (v : String)
  | shadowBlur (v : Nat)
  | fillStyle (v : String)
  | fillRect (x y w h : Int)
  | font (v : String)
  | fillText (label : String) (score : ℚ) (x y : Int)
  deriving DecidableEq, Repr

/-- Side effects of the guarded block at the end of `detectFrame`. -/
inductive Effect where
  /-- `setPulseDetection(true)` with its 500 ms reset timer. -/
  | pulse
  /-- `new Audio('/ring.mp3').play()`. -/
  | ring
  /-- `saveSnapshot()`. -/
  | snapshot
  deriving DecidableEq, Repr

/-- The component's mutable state that the pipeline reads and writes. -/
structure PipelineState where
  personCount : Nat
  detecting : Bool
  status : String
  detectingRef : Bool
  lastPlayedRef : Int
  lastSnapshotRef : Int
  /-- Drawing operations on the overlay canvas since it was last blanked. -/
  overlay : List CanvasOp
  /-- Number of `detectFrame` calls suspended at `await model.detect`. -/
  inFlight : Nat
  deriving DecidableEq, Repr

/-- State of a freshly mounted component (lines 10-19). -/
def initialState : PipelineState :=
  { personCount := 0
    detecting := true
    status := "Initializing..."
    detectingRef := true
    lastPlayedRef := 0
    lastSnapshotRef := 0
    overlay := []
    inFlight := 0 }

/-- `playRing` (lines 40-47), called when `Date.now()` returns `now`.  The
Boolean tells whether the audio cue was started. -/
def playRing (s : PipelineState) (now : Int) : PipelineState × Bool :=
  if now - s.lastPlayedRef < 5000 then (s, false)
  else ({ s with lastPlayedRef := now }, true)

/-- Vertical position of the label chip (second argument of `fillRect`,
line 118). -/
def chipTop (y height : Int) : Int :=
  if y > 30 then y - 25 else y + height + 5

/-- Vertical position of the label text (third argument of `fillText`,
line 121). -/
def textBaseline (y height : Int) : Int :=
  if y > 30 then y - 10 else y + height + 18

/-- The drawing calls of lines 103-121 for one prediction. -/
def drawPerson (p : Prediction) : List CanvasOp :=
  match p.bbox with
  | (x, y, width, height) =>
    [ .strokeStyle "#ff6b9d",
      .lineWidth 3,
      .setLineDash [5, 5],
      .strokeRect x y width height,
      .setLineDash [],
      .shadowColor "#ff6b9d",
      .shadowBlur 10,
      .strokeRect x y width height,
      .shadowBlur 0,
      .fillStyle "rgba(255, 107, 157, 0.9)",
      .fillRect x (chipTop y height) 120 20,
      .fillStyle "white",
      .font "bold 14px Arial",
      .fillText p.cls p.score (x + 5) (textBaseline y height) ]

/-- Body of the `forEach` callback (lines 96-123) acting on the running
`count` and on the operations drawn so far. -/
def forEachBody (acc : Nat × List CanvasOp) (p : Prediction) : Nat × List CanvasOp :=
  if p.cls = "person" then (acc.1 + 1, acc.2 ++ drawPerson p) else acc

/-- Lines 94-123: `count` and the overlay after the loop over `predictions`,
starting from `count = 0` on the cleared canvas. -/
def drawPredictions (predictions : List Prediction) : Nat × List CanvasOp :=
  predictions.foldl forEachBody (0, [])

/-- What a resumed `detectFrame` leaves behind. -/
structure TickResult where
  state : PipelineState
  effects : List Effect
  /-- Rejection reason of the promise returned by `detectFrame`, if any. -/
  rejected : Option String
  deriving DecidableEq, Repr

/-- Lines 127-137: the guarded side-effect block, with `now` the clock read
of line 128 and `ringNow` the clock read inside `playRing`. -/
def sideEffects (s : PipelineState) (count : Nat) (now ringNow : Int) :
    PipelineState × List Effect :=
  if count > 0 && s.detectingRef then
    let r := playRing s ringNow
    let fx := if r.2 then [Effect.pulse, Effect.ring] else [Effect.pulse]
    if now - r.1.lastSnapshotRef > 10000 then
      ({ r.1 with lastSnapshotRef := now }, fx ++ [Effect.snapshot])
    else (r.1, fx)
  else (s, [])

/-- Lines 88-137: `detectFrame` from the point where `model.detect` settles
with `result`. -/
def detectFrameResume (s : PipelineState) (result : Except String (List Prediction))
    (now ringNow : Int) : TickResult :=
  match result with
  | .error e => { state := { s with inFlight := s.inFlight - 1 }, effects := [], rejected := some e }
  | .ok predictions =>
    let d := drawPredictions predictions
    let s1 := { s with inFlight := s.inFlight - 1, overlay := d.2, personCount := d.1 }
    let r := sideEffects s1 d.1 now ringNow
    { state := r.1, effects := r.2, rejected := none }

/-- The interval callback (line 79) followed by lines 86-88 of `detectFrame`:
a call is left suspended at `await model.detect` when detection is enabled and
the video element is ready (`readyState === 4`). -/
def detectFrameStart (s : PipelineState) (videoReady : Bool) : PipelineState :=
  if s.detectingRef && videoReady then { s with inFlight := s.inFlight + 1 } else s

/-- `toggleDetecting` (lines 142-151). -/
def toggleDetecting (s : PipelineState) : PipelineState :=
  let newVal := !s.detecting
  { s with
    detectingRef := newVal
    detecting := newVal
    status := if newVal then "Actively detecting..." else "Detection paused"
    personCount := 0
    overlay := [] }

/-- Events of the pipeline once the model is loaded and the 200 ms interval
of lines 76-83 is installed. -/
inductive Step where
  /-- The 200 ms timer fires. -/
  | tickStart (videoReady : Bool)
  /-- A suspended `detectFrame` call is resumed with the detector's answer. -/
  | tickComplete (result : Except String (List Prediction)) (now ringNow : Int)
  /-- The user clicks the start/stop button. -/
  | toggle

/-- One event applied to the state; a completion needs a suspended call. -/
def step (s : PipelineState) : Step → PipelineState
  | .tickStart videoReady => detectFrameStart s videoReady
  | .tickComplete result now ringNow =>
    if s.inFlight = 0 then s else (detectFrameResume s result now ringNow).state
  | .toggle => toggleDetecting s

/-- The state after a sequence of events. -/
def run (s : PipelineState) (steps : List Step) : PipelineState :=
  steps.foldl step s

/-- States reachable from the freshly mounted component. -/
def Reachable (s : PipelineState) : Prop :=
  ∃ steps : List Step, run initialState steps = s

/-! ## Runs -/

/-- Successive `playRing` calls at the given clock readings; the second
component lists the readings at which the cue was started. -/
def ringRun (s : PipelineState) : List Int → PipelineState × List Int
  | [] => (s, [])
  | t :: ts =>
    let r := playRing s t
    let rest := ringRun r.1 ts
    (rest.1, if r.2 then t :: rest.2 else rest.2)

/-- Ticks 200 ms apart, the first at clock reading `t`: each is started with
the video ready and resumed with its detection list, both clock reads of a
tick returning that tick's time.  The result lists each tick's effects. -/
def runTicks (s : PipelineState) (t : Int) : List (List Prediction) → List (List Effect)
  | [] => []
  | ps :: rest =>
    if s.detectingRef then
      let r := detectFrameResume (detectFrameStart s true) (.ok ps) t t
      r.effects :: runTicks r.state (t + 200) rest
    else [] :: runTicks s (t + 200) rest

/-- A detection of class `person` with the given box. -/
def personAt (x y width height : Int) : Prediction :=
  { bbox := (x, y, width, height), cls := "person", score := 1 }

/-- Specification side of the overlay loop: the entries of the detection list
whose class is the target label, in list order. -/
def targetEntries (predictions : List Prediction) : List Prediction :=
  predictions.filter (fun p => p.cls = "person")

/-- Drawing calls that place geometry on the canvas. -/
def CanvasOp.isShape : CanvasOp → Bool
  | .strokeRect .. => true
  | .fillRect .. => true
  | .fillText .. => true
  | _ => false

/-! ## Concrete inputs and proof-side definitions -/

/-- The state right after line 125 of a resumed tick, written with
`targetEntries`: overlay redrawn, `personCount` set. -/
def drawnState (s : PipelineState) (ps : List Prediction) : PipelineState :=
  { s with
    inFlight := s.inFlight - 1
    overlay := (targetEntries ps).flatMap drawPerson
    personCount := (targetEntries ps).length }

/-- State after a first qualifying tick at clock reading `1700000000000` on a
freshly mounted component: alert and snapshot have both just fired. -/
def afterFirstCapture : PipelineState :=
  (detectFrameResume (detectFrameStart initialState true)
    (.ok [personAt 50 60 100 200]) 1700000000000 1700000000000).state

/-- A tick starts while detection is enabled, the user pauses, and the tick
then completes with one `person` in its detection list. -/
def lateCompletion : List Step :=
  [ .tickStart true,
    .toggle,
    .tickComplete (.ok [personAt 50 60 100 200]) 1700000000000 1700000000000 ]

/-- State in which two persons are on display and a further tick is suspended
at `model.detect`. -/
def twoPersonsShown : PipelineState :=
  run initialState
    [ .tickStart true,
      .tickComplete (.ok [personAt 50 60 100 200, personAt 300 60 100 200])
        1700000000000 1700000000000,
      .tickStart true ]

/-- Detection lists with person counts 0, 0, 3, 3, 0; the third also holds a
detection of another class. -/
def scenarioFrames : List (List Prediction) :=
  [ [],
    [{ bbox := (10, 10, 40, 40), cls := "chair", score := 1 }],
    [personAt 50 60 100 200, personAt 300 60 100 200,
      { bbox := (10, 10, 40, 40), cls := "chair", score := 1 }, personAt 500 20 80 200],
    [personAt 50 60 100 200, personAt 300 60 100 200, personAt 500 20 80 200],
    [] ]

/-! ## Helper lemmas -/

lemma playRing_fired_iff (s : PipelineState) (now : Int) :
    (playRing s now).2 = true ↔ 5000 ≤ now - s.lastPlayedRef := by
  unfold playRing
  split <;> simp <;> omega

lemma playRing_state (s : PipelineState) (now : Int) :
    (playRing s now).1 =
      if 5000 ≤ now - s.lastPlayedRef then { s with lastPlayedRef := now } else s := by
  unfold playRing
  split
  · rw [if_neg (by omega)]
  · rw [if_pos (by omega)]

lemma sideEffects_gate_closed (s : PipelineState) (count : Nat) (now ringNow : Int)
    (h : count = 0 ∨ s.detectingRef = false) :
    sideEffects s count now ringNow = (s, []) := by
  unfold sideEffects
  rcases h with h | h <;> simp [h]

lemma sideEffects_gate_open (s : PipelineState) (count : Nat) (now ringNow : Int)
    (hc : 0 < count) (he : s.detectingRef = true) :
    sideEffects s count now ringNow =
      ({ s with
          lastPlayedRef := if 5000 ≤ ringNow - s.lastPlayedRef then ringNow else s.lastPlayedRef
          lastSnapshotRef := if 10000 < now - s.lastSnapshotRef then now else s.lastSnapshotRef },
        [Effect.pulse] ++ (if 5000 ≤ ringNow - s.lastPlayedRef then [Effect.ring] else [])
          ++ (if 10000 < now - s.lastSnapshotRef then [Effect.snapshot] else [])) := by
  have hc0 : count ≠ 0 := by omega
  obtain ⟨pc, d, st, dr, lp, ls, ov, fl⟩ := s
  simp only at he
  subst he
  unfold sideEffects playRing
  simp only
  by_cases h1 : 5000 ≤ ringNow - lp
  · have h1n : ¬ ringNow - lp < 5000 := by omega
    by_cases h2 : 10000 < now - ls
    · simp [hc, h1, h1n, h2]
    · simp [hc, h1, h1n, h2]
  · have h1n : ringNow - lp < 5000 := by omega
    by_cases h2 : 10000 < now - ls
    · simp [hc, h1, h1n, h2]
    · simp [hc, h1, h1n, h2]

lemma foldl_forEachBody (ps : List Prediction) (acc : Nat × List CanvasOp) :
    ps.foldl forEachBody acc =
      (acc.1 + (targetEntries ps).length, acc.2 ++ (targetEntries ps).flatMap drawPerson) := by
  induction ps generalizing acc with
  | nil => simp [targetEntries]
  | cons p ps ih =>
    rw [List.foldl_cons, ih]
    by_cases hp : p.cls = "person"
    · simp [forEachBody, targetEntries, hp, List.filter_cons]
      omega
    · simp [forEachBody, targetEntries, hp, List.filter_cons]

lemma drawPredictions_eq (ps : List Prediction) :
    drawPredictions ps = ((targetEntries ps).length, (targetEntries ps).flatMap drawPerson) := by
  simp [drawPredictions, foldl_forEachBody]

lemma sideEffects_frame (s : PipelineState) (count : Nat) (now ringNow : Int) :
    (sideEffects s count now ringNow).1.personCount = s.personCount ∧
    (sideEffects s count now ringNow).1.overlay = s.overlay ∧
    (sideEffects s count now ringNow).1.detectingRef = s.detectingRef ∧
    (sideEffects s count now ringNow).1.detecting = s.detecting ∧
    (sideEffects s count now ringNow).1.inFlight = s.inFlight := by
  by_cases h : count = 0 ∨ s.detectingRef = false
  · rw [sideEffects_gate_closed s count now ringNow h]
    simp
  · have hc : 0 < count := by
      rcases Nat.eq_zero_or_pos count with h0 | h0
      · exact absurd (Or.inl h0) h
      · exact h0
    have he : s.detectingRef = true := by
      cases hd : s.detectingRef
      · exact absurd (Or.inr hd) h
      · rfl
    rw [sideEffects_gate_open s count now ringNow hc he]
    simp [he]

lemma detectFrameResume_ok (s : PipelineState) (ps : List Prediction) (now ringNow : Int) :
    detectFrameResume s (.ok ps) now ringNow =
      { state := (sideEffects (drawnState s ps) (targetEntries ps).length now ringNow).1
        effects := (sideEffects (drawnState s ps) (targetEntries ps).length now ringNow).2
        rejected := none } := by
  simp [detectFrameResume, drawPredictions_eq, drawnState]

lemma ringRun_append (s : PipelineState) (pre post : List Int) :
    ringRun s (pre ++ post) =
      ((ringRun (ringRun s pre).1 post).1, (ringRun s pre).2 ++ (ringRun (ringRun s pre).1 post).2) := by
  induction pre generalizing s with
  | nil => simp [ringRun]
  | cons t ts ih =>
    have ih2 := ih (playRing s t).1
    simp only [List.cons_append, ringRun, List.append_eq]
    rw [ih2]
    split <;> simp

/-- The timestamp left by a run is its last fire, or the incoming timestamp
when nothing fired. -/
lemma ringRun_last (s : PipelineState) (ts : List Int) :
    (ringRun s ts).1.lastPlayedRef = (ringRun s ts).2.getLast?.getD s.lastPlayedRef := by
  induction ts generalizing s with
  | nil => simp [ringRun]
  | cons t ts ih =>
    simp only [ringRun]
    rw [ih]
    by_cases h : (playRing s t).2 = true
    · have hs : (playRing s t).1.lastPlayedRef = t := by
        rw [playRing_state, if_pos ((playRing_fired_iff s t).mp h)]
      rw [if_pos h, hs]
      cases hl : (ringRun (playRing s t).1 ts).2 with
      | nil => simp
      | cons a l =>
        rw [List.getLast?_cons_cons]
        obtain ⟨b, hb⟩ := Option.isSome_iff_exists.mp
          (List.getLast?_isSome.mpr (List.cons_ne_nil a l))
        simp [hb]
    · have hs : (playRing s t).1.lastPlayedRef = s.lastPlayedRef := by
        have hn : ¬ 5000 ≤ t - s.lastPlayedRef := fun hc => h ((playRing_fired_iff s t).mpr hc)
        rw [playRing_state, if_neg hn]
      rw [if_neg h, hs]

/-- Every fire of a run is at least 5000 after the incoming timestamp. -/
lemma ringRun_fires_after (s : PipelineState) (ts : List Int) :
    ∀ b ∈ (ringRun s ts).2, s.lastPlayedRef + 5000 ≤ b := by
  induction ts generalizing s with
  | nil => simp [ringRun]
  | cons t ts ih =>
    intro b hb
    simp only [ringRun] at hb
    by_cases h : (playRing s t).2 = true
    · have h5 := (playRing_fired_iff s t).mp h
      have hs : (playRing s t).1.lastPlayedRef = t := by
        rw [playRing_state, if_pos h5]
      rw [if_pos h] at hb
      rcases List.mem_cons.mp hb with rfl | hb
      · omega
      · have := ih (playRing s t).1 b hb
        omega
    · have hn : ¬ 5000 ≤ t - s.lastPlayedRef := fun hc => h ((playRing_fired_iff s t).mpr hc)
      have hs : (playRing s t).1.lastPlayedRef = s.lastPlayedRef := by
        rw [playRing_state, if_neg hn]
      rw [if_neg h] at hb
      have := ih (playRing s t).1 b hb
      omega

lemma ringRun_pairwise (s : PipelineState) (ts : List Int) :
    (ringRun s ts).2.Pairwise (fun a b => a + 5000 ≤ b) := by
  induction ts generalizing s with
  | nil => simp [ringRun]
  | cons t ts ih =>
    simp only [ringRun]
    by_cases h : (playRing s t).2 = true
    · have hs : (playRing s t).1.lastPlayedRef = t := by
        rw [playRing_state, if_pos ((playRing_fired_iff s t).mp h)]
      rw [if_pos h, List.pairwise_cons]
      refine ⟨fun b hb => ?_, ih _⟩
      have := ringRun_fires_after (playRing s t).1 ts b hb
      omega
    · rw [if_neg h]
      exact ih _

lemma detectFrameStart_enabled (s : PipelineState) (he : s.detectingRef = true) :
    detectFrameStart s true = { s with inFlight := s.inFlight + 1 } := by
  simp [detectFrameStart, he]

/-- One tick of `runTicks` on an enabled pipeline, in terms of the three
fields the throttles read. -/
lemma tick_spec (s : PipelineState) (ps : List Prediction) (t : Int)
    (he : s.detectingRef = true) :
    (detectFrameResume (detectFrameStart s true) (.ok ps) t t).state.detectingRef = true ∧
    (detectFrameResume (detectFrameStart s true) (.ok ps) t t).state.lastPlayedRef
      = (if 0 < (drawPredictions ps).1 ∧ 5000 ≤ t - s.lastPlayedRef then t
          else s.lastPlayedRef) ∧
    (detectFrameResume (detectFrameStart s true) (.ok ps) t t).state.lastSnapshotRef
      = (if 0 < (drawPredictions ps).1 ∧ 10000 < t - s.lastSnapshotRef then t
          else s.lastSnapshotRef) ∧
    (detectFrameResume (detectFrameStart s true) (.ok ps) t t).effects
      = (if 0 < (drawPredictions ps).1 then
          [Effect.pulse] ++ (if 5000 ≤ t - s.lastPlayedRef then [Effect.ring] else [])
            ++ (if 10000 < t - s.lastSnapshotRef then [Effect.snapshot] else [])
        else []) := by
  rw [detectFrameStart_enabled s he, detectFrameResume_ok, drawPredictions_eq]
  by_cases hc : 0 < (targetEntries ps).length
  · rw [sideEffects_gate_open (drawnState { s with inFlight := s.inFlight + 1 } ps) _ t t hc he]
    simp [hc, drawnState, he]
  · rw [sideEffects_gate_closed (drawnState { s with inFlight := s.inFlight + 1 } ps) _ t t
      (Or.inl (by omega))]
    simp [hc, drawnState, he]

lemma toggleDetecting_sync (s : PipelineState) :
    (toggleDetecting s).detecting = (toggleDetecting s).detectingRef := rfl

lemma step_sync (s : PipelineState) (e : Step) (h : s.detecting = s.detectingRef) :
    (step s e).detecting = (step s e).detectingRef := by
  cases e with
  | tickStart videoReady =>
    simp only [step, detectFrameStart]
    split <;> simpa using h
  | tickComplete result now ringNow =>
    simp only [step]
    split
    · exact h
    · cases result with
      | error e => simpa [detectFrameResume] using h
      | ok ps =>
        rw [detectFrameResume_ok]
        have hf := sideEffects_frame (drawnState s ps) (targetEntries ps).length now ringNow
        rw [hf.2.2.1, hf.2.2.2.1]
        exact h
  | toggle => exact toggleDetecting_sync s

lemma run_sync (steps : List Step) (s : PipelineState) (h : s.detecting = s.detectingRef) :
    (run s steps).detecting = (run s steps).detectingRef := by
  induction steps generalizing s with
  | nil => exact h
  | cons e es ih => exact ih (step s e) (step_sync s e h)

/-- In every reachable state the React state `detecting` and the ref
`detectingRef` agree. -/
lemma reachable_sync (s : PipelineState) (h : Reachable s) :
    s.detecting = s.detectingRef := by
  obtain ⟨steps, rfl⟩ := h
  exact run_sync steps initialState rfl

/-! ## Claims -/

/-- C3 (alert throttle law): a call of `playRing` at clock reading `now` starts
the audio cue exactly when `now - lastPlayedRef ≥ 5000`; when it does, the only
change to the state is `lastPlayedRef := now`, and when it does not, the state
(so `lastPlayedRef` too) is left as it was. -/
theorem playRing_throttle_law (s : PipelineState) (now : Int) :
    ((playRing s now).2 = true ↔ now - s.lastPlayedRef ≥ 5000) ∧
    ((playRing s now).2 = true →
      (playRing s now).1 = { s with lastPlayedRef := now }) ∧
    ((playRing s now).2 = false →
      (playRing s now).1 = s ∧ (playRing s now).1.lastPlayedRef = s.lastPlayedRef) := by
  refine ⟨playRing_fired_iff s now, ?_, ?_⟩
  · intro h
    rw [playRing_state, if_pos ((playRing_fired_iff s now).mp h)]
  · intro h
    have hn : ¬ 5000 ≤ now - s.lastPlayedRef := by
      intro hc
      rw [(playRing_fired_iff s now).mpr hc] at h
      exact Bool.noConfusion h
    rw [playRing_state, if_neg hn]
    exact ⟨rfl, rfl⟩

/-- C2 (snapshot throttle at the boundary): after a capture at clock reading
`1700000000000`, a qualifying tick whose clock reads return `1700000010000`
(exactly 10000 ms later, pipeline enabled, one person detected) takes no
snapshot and leaves `lastSnapshotRef` at `1700000000000`, although the alert
fires; one millisecond later the snapshot is taken.  The alert throttle, in
contrast, does fire at its own boundary `now - lastPlayedRef = 5000`. -/
theorem snapshot_boundary_not_captured :
    afterFirstCapture.lastSnapshotRef = 1700000000000 ∧
    afterFirstCapture.detectingRef = true ∧
    (detectFrameResume (detectFrameStart afterFirstCapture true)
        (.ok [personAt 50 60 100 200]) 1700000010000 1700000010000).effects
      = [Effect.pulse, Effect.ring] ∧
    (detectFrameResume (detectFrameStart afterFirstCapture true)
        (.ok [personAt 50 60 100 200]) 1700000010000 1700000010000).state.lastSnapshotRef
      = 1700000000000 ∧
    (detectFrameResume (detectFrameStart afterFirstCapture true)
        (.ok [personAt 50 60 100 200]) 1700000010001 1700000010001).effects
      = [Effect.pulse, Effect.ring, Effect.snapshot] ∧
    (playRing afterFirstCapture 1700000005000).2 = true := by
  decide

/-- C9 (side effects gated on count and enablement at completion): for a tick
resumed with detection list `ps`, write `n` for its number of `person`
entries.  If `n = 0` or `detectingRef` is false at that moment, no effect is
produced and both throttle timestamps keep their values.  If `n > 0` and
`detectingRef` is true, the new `lastPlayedRef` and the cue are those of one
`playRing` call on the incoming state (decided by `ringNow - lastPlayedRef`
alone), the effects contain `ring` once or not at all, `snapshot` once or not at
all, and the snapshot is taken, and `lastSnapshotRef` updated, exactly when
`now - lastSnapshotRef > 10000` (decided by `lastSnapshotRef` alone). -/
theorem side_effects_gated (s : PipelineState) (ps : List Prediction) (now ringNow : Int) :
    (((targetEntries ps).length = 0 ∨ s.detectingRef = false) →
      (detectFrameResume s (.ok ps) now ringNow).effects = [] ∧
      (detectFrameResume s (.ok ps) now ringNow).state.lastPlayedRef = s.lastPlayedRef ∧
      (detectFrameResume s (.ok ps) now ringNow).state.lastSnapshotRef = s.lastSnapshotRef) ∧
    ((0 < (targetEntries ps).length ∧ s.detectingRef = true) →
      (detectFrameResume s (.ok ps) now ringNow).state.lastPlayedRef
        = (playRing s ringNow).1.lastPlayedRef ∧
      (detectFrameResume s (.ok ps) now ringNow).effects.count Effect.ring
        = (if (playRing s ringNow).2 then 1 else 0) ∧
      (Effect.ring ∈ (detectFrameResume s (.ok ps) now ringNow).effects
        ↔ 5000 ≤ ringNow - s.lastPlayedRef) ∧
      (detectFrameResume s (.ok ps) now ringNow).effects.count Effect.snapshot
        = (if 10000 < now - s.lastSnapshotRef then 1 else 0) ∧
      (Effect.snapshot ∈ (detectFrameResume s (.ok ps) now ringNow).effects
        ↔ 10000 < now - s.lastSnapshotRef) ∧
      (detectFrameResume s (.ok ps) now ringNow).state.lastSnapshotRef
        = (if 10000 < now - s.lastSnapshotRef then now else s.lastSnapshotRef)) := by
  rw [detectFrameResume_ok]
  constructor
  · intro h
    rw [sideEffects_gate_closed (drawnState s ps) _ now ringNow h]
    simp [drawnState]
  · rintro ⟨hc, he⟩
    rw [sideEffects_gate_open (drawnState s ps) _ now ringNow hc he]
    have e1 : (drawnState s ps).lastPlayedRef = s.lastPlayedRef := rfl
    have e2 : (drawnState s ps).lastSnapshotRef = s.lastSnapshotRef := rfl
    simp only [playRing_state, e1, e2]
    by_cases h5 : 5000 ≤ ringNow - s.lastPlayedRef <;>
      by_cases h10 : 10000 < now - s.lastSnapshotRef <;>
      simp [h5, h10, playRing_fired_iff, (playRing_fired_iff s ringNow).mpr]

/-- C10 (label chip placement): for a detection with box `(x, y, width, height)`
the drawing group holds one `fillRect` and one `fillText`; when `y > 30` the
chip is at `y - 25` and the text at `y - 10`, and then the chip top is
strictly positive; when `y ≤ 30` the chip is at `y + height + 5` and the text
at `y + height + 18`. -/
theorem label_chip_placement (x y width height : Int) (cls : String) (score : ℚ) :
    (30 < y →
      (drawPerson ⟨(x, y, width, height), cls, score⟩).filter
          (fun op => op matches .fillRect .. | .fillText ..)
        = [.fillRect x (y - 25) 120 20, .fillText cls score (x + 5) (y - 10)] ∧
      0 < y - 25) ∧
    (y ≤ 30 →
      (drawPerson ⟨(x, y, width, height), cls, score⟩).filter
          (fun op => op matches .fillRect .. | .fillText ..)
        = [.fillRect x (y + height + 5) 120 20,
           .fillText cls score (x + 5) (y + height + 18)]) := by
  constructor
  · intro h
    refine ⟨?_, by omega⟩
    simp [drawPerson, chipTop, textBaseline, h]
  · intro h
    have h2 : ¬ 30 < y := by omega
    simp [drawPerson, chipTop, textBaseline, h2]

/-- C7 (target-label count): a tick resumed with detection list `ps` writes to
`personCount` the number of entries of class `person`; the overlay is the
concatenation, in list order, of one `drawPerson` group per such entry; an
entry of another class changes neither count nor overlay; and each group has
as its shapes the box (stroked twice on the same rectangle), one chip and one
text. -/
theorem person_count_and_overlay (s : PipelineState) (ps : List Prediction)
    (now ringNow : Int) :
    (detectFrameResume s (.ok ps) now ringNow).state.personCount
      = (targetEntries ps).length ∧
    (detectFrameResume s (.ok ps) now ringNow).state.overlay
      = (targetEntries ps).flatMap drawPerson ∧
    (∀ acc p, p.cls ≠ "person" → forEachBody acc p = acc) ∧
    (∀ pre p post, p.cls ≠ "person" →
      drawPredictions (pre ++ p :: post) = drawPredictions (pre ++ post)) ∧
    (∀ p ∈ targetEntries ps, p.cls = "person" ∧
      (drawPerson p).filter CanvasOp.isShape =
        [ .strokeRect p.bbox.1 p.bbox.2.1 p.bbox.2.2.1 p.bbox.2.2.2,
          .strokeRect p.bbox.1 p.bbox.2.1 p.bbox.2.2.1 p.bbox.2.2.2,
          .fillRect p.bbox.1 (chipTop p.bbox.2.1 p.bbox.2.2.2) 120 20,
          .fillText p.cls p.score (p.bbox.1 + 5) (textBaseline p.bbox.2.1 p.bbox.2.2.2) ]) := by
  refine ⟨?_, ?_, ?_, ?_, ?_⟩
  · rw [detectFrameResume_ok]
    exact (sideEffects_frame (drawnState s ps) _ now ringNow).1
  · rw [detectFrameResume_ok]
    exact (sideEffects_frame (drawnState s ps) _ now ringNow).2.1
  · intro acc p hp
    simp [forEachBody, hp]
  · intro pre p post hp
    simp [drawPredictions_eq, targetEntries, List.filter_cons, hp]
  · intro p hp
    refine ⟨by simpa [targetEntries] using (List.mem_filter.mp hp).2, ?_⟩
    obtain ⟨⟨x, y, w, h⟩, c, sc⟩ := p
    simp [drawPerson, CanvasOp.isShape]

/-- C5 (minimum spacing of alert fires): run `playRing` over any finite
sequence of clock readings from any state.  (1) The event `t` that follows the
events `pre` fires exactly when `t` minus the most recent fire (the last fire
among `pre`, or the incoming `lastPlayedRef` when none of them fired) is at
least 5000: the fires of the run are those of `pre`, then `t` under that
condition, then those of the remaining events.  (2) Any two fires of the run
are at least 5000 apart.  (3) The fires of a prefix are a prefix of the fires
of the whole run, so their number does not exceed it.  (4) Of two events 4000
apart of which the first fires, the second is suppressed. -/
theorem alert_fires_min_spacing (s : PipelineState) (ts : List Int) :
    (∀ pre t post, ts = pre ++ t :: post →
      ((playRing (ringRun s pre).1 t).2 = true
        ↔ 5000 ≤ t - (ringRun s pre).2.getLast?.getD s.lastPlayedRef) ∧
      (ringRun s ts).2 =
        (ringRun s pre).2
          ++ (if 5000 ≤ t - (ringRun s pre).2.getLast?.getD s.lastPlayedRef then [t] else [])
          ++ (ringRun (playRing (ringRun s pre).1 t).1 post).2) ∧
    (ringRun s ts).2.Pairwise (fun a b => 5000 ≤ b - a) ∧
    (∀ pre post, ts = pre ++ post →
      (ringRun s pre).2 <+: (ringRun s ts).2 ∧
      (ringRun s pre).2.length ≤ (ringRun s ts).2.length) ∧
    (∀ t, 5000 ≤ t - s.lastPlayedRef → (ringRun s [t, t + 4000]).2 = [t]) := by
  refine ⟨?_, ?_, ?_, ?_⟩
  · intro pre t post hts
    subst hts
    have hfire := playRing_fired_iff (ringRun s pre).1 t
    rw [ringRun_last] at hfire
    refine ⟨hfire, ?_⟩
    rw [ringRun_append]
    simp only [ringRun]
    by_cases h : (playRing (ringRun s pre).1 t).2 = true
    · simp [h, hfire.mp h]
    · have hn : ¬ 5000 ≤ t - (ringRun s pre).2.getLast?.getD s.lastPlayedRef :=
        fun hc => h (hfire.mpr hc)
      simp [h, hn]
  · exact (ringRun_pairwise s ts).imp (fun h => by omega)
  · intro pre post hts
    subst hts
    have hp : (ringRun s pre).2 <+: (ringRun s (pre ++ post)).2 := by
      rw [ringRun_append]
      exact List.prefix_append _ _
    exact ⟨hp, hp.length_le⟩
  · intro t ht
    have h1 : ¬ t - s.lastPlayedRef < 5000 := by omega
    simp [ringRun, playRing, h1]

/-- C1 (paused invariant, evaluated on a late completion): the state reached
by a tick start, a toggle to paused and the completion of that tick with one
`person` detected is reachable, has `detectingRef = false`, and nevertheless
has `personCount = 1` and a non-empty overlay, while right after the toggle
the count was `0` and the overlay empty; the completion produced no alert and
no snapshot. -/
theorem late_completion_resurrects_count :
    Reachable (run initialState lateCompletion) ∧
    (run initialState lateCompletion).detectingRef = false ∧
    (run initialState lateCompletion).personCount = 1 ∧
    (run initialState lateCompletion).overlay = drawPerson (personAt 50 60 100 200) ∧
    (run initialState (lateCompletion.take 2)).personCount = 0 ∧
    (run initialState (lateCompletion.take 2)).overlay = [] ∧
    (detectFrameResume (run initialState (lateCompletion.take 2))
      (.ok [personAt 50 60 100 200]) 1700000000000 1700000000000).effects = [] := by
  refine ⟨⟨lateCompletion, rfl⟩, ?_, ?_, ?_, ?_, ?_, ?_⟩ <;> decide

/-- C4, counterexample: with two persons on display, a tick whose
`model.detect` rejects with `"detect failed"` ends with the promise of
`detectFrame` rejected with that reason, and `personCount` is still `2`, not
`0`. -/
theorem detector_failure_not_zeroed :
    twoPersonsShown.personCount = 2 ∧
    (detectFrameResume twoPersonsShown (.error "detect failed")
      1700000000200 1700000000200).rejected = some "detect failed" ∧
    (detectFrameResume twoPersonsShown (.error "detect failed")
      1700000000200 1700000000200).state.personCount = 2 ∧
    (detectFrameResume twoPersonsShown (.error "detect failed")
      1700000000200 1700000000200).state.personCount ≠ 0 := by
  decide

/-- C4, amended: when `model.detect` rejects with reason `e`, the promise of
`detectFrame` rejects with `e`, no effect is produced, and the state is the
incoming one with the suspended call gone: `personCount`, the overlay and both
throttle timestamps keep their values.  A following tick that succeeds with
detection list `ps` resolves and sets `personCount` to the number of `person`
entries of `ps`. -/
theorem detector_failure_leaves_state (s : PipelineState) (e : String)
    (now ringNow : Int) :
    (detectFrameResume s (.error e) now ringNow).rejected = some e ∧
    (detectFrameResume s (.error e) now ringNow).effects = [] ∧
    (detectFrameResume s (.error e) now ringNow).state = { s with inFlight := s.inFlight - 1 } ∧
    (detectFrameResume s (.error e) now ringNow).state.personCount = s.personCount ∧
    (detectFrameResume s (.error e) now ringNow).state.overlay = s.overlay ∧
    (detectFrameResume s (.error e) now ringNow).state.lastPlayedRef = s.lastPlayedRef ∧
    (detectFrameResume s (.error e) now ringNow).state.lastSnapshotRef = s.lastSnapshotRef ∧
    (∀ (ps : List Prediction) (now2 ringNow2 : Int),
      (detectFrameResume (detectFrameStart (detectFrameResume s (.error e) now ringNow).state true)
        (.ok ps) now2 ringNow2).rejected = none ∧
      (detectFrameResume (detectFrameStart (detectFrameResume s (.error e) now ringNow).state true)
        (.ok ps) now2 ringNow2).state.personCount = (targetEntries ps).length) := by
  refine ⟨rfl, rfl, rfl, rfl, rfl, rfl, rfl, ?_⟩
  intro ps now2 ringNow2
  rw [detectFrameResume_ok]
  exact ⟨rfl, (sideEffects_frame _ _ now2 ringNow2).1⟩

/-- C6, counterexample: from the initial state, with the first tick at clock
reading `0`, the five ticks with person counts 0, 0, 3, 3, 0 start neither the
alert nor the snapshot on any tick. -/
theorem first_event_suppressed_at_epoch :
    scenarioFrames.map (fun ps => (drawPredictions ps).1) = [0, 0, 3, 3, 0] ∧
    runTicks initialState 0 scenarioFrames
      = [[], [], [Effect.pulse], [Effect.pulse], []] := by
  decide

/-- C6, amended: from the initial state (`lastPlayedRef = 0`,
`lastSnapshotRef = 0`, detection enabled), when the first tick's clock reading
`t` is above 9600 (so the third tick is more than 10000 after the zero
timestamps), five ticks 200 ms apart with person counts 0, 0, 3, 3, 0 start the
alert once and the snapshot once, both on the third tick; the fourth tick
starts neither. -/
theorem first_event_fires_once (t : Int) (frames : List (List Prediction))
    (ht : 9600 < t)
    (hcount : frames.map (fun ps => (drawPredictions ps).1) = [0, 0, 3, 3, 0]) :
    runTicks initialState t frames
      = [[], [], [Effect.pulse, Effect.ring, Effect.snapshot], [Effect.pulse], []] := by
  have hl : frames.length = 5 := by simpa using congrArg List.length hcount
  rcases frames with _ | ⟨f1, _ | ⟨f2, _ | ⟨f3, _ | ⟨f4, _ | ⟨f5, _ | ⟨f6, r⟩⟩⟩⟩⟩⟩
  any_goals (exfalso; simp only [List.length_cons, List.length_nil] at hl; omega)
  simp only [List.map_cons, List.map_nil, List.cons.injEq, and_true] at hcount
  obtain ⟨c1, c2, c3, c4, c5⟩ := hcount
  have e0 : initialState.detectingRef = true := rfl
  have l0 : initialState.lastPlayedRef = 0 := rfl
  have n0 : initialState.lastSnapshotRef = 0 := rfl
  obtain ⟨d1, p1, s1, f1⟩ := tick_spec initialState f1 t e0
  rw [c1, l0] at p1
  rw [c1, n0] at s1
  rw [c1] at f1
  simp only [lt_self_iff_false, false_and, if_false] at p1 s1 f1
  obtain ⟨d2, p2, s2, f2⟩ := tick_spec _ f2 (t + 200) d1
  rw [c2, p1] at p2
  rw [c2, s1] at s2
  rw [c2] at f2
  simp only [lt_self_iff_false, false_and, if_false] at p2 s2 f2
  obtain ⟨d3, p3, s3, f3⟩ := tick_spec _ f3 (t + 200 + 200) d2
  rw [c3, p2] at p3 f3
  rw [c3, s2] at s3
  rw [s2] at f3
  have a3 : (5000 : Int) ≤ t + 200 + 200 - 0 := by omega
  have b3 : (10000 : Int) < t + 200 + 200 - 0 := by omega
  simp only [a3, b3, Nat.ofNat_pos, true_and, if_true] at p3 s3 f3
  obtain ⟨d4, p4, s4, f4⟩ := tick_spec _ f4 (t + 200 + 200 + 200) d3
  rw [c4, p3] at p4 f4
  rw [c4, s3] at s4
  rw [s3] at f4
  have a4 : ¬ (5000 : Int) ≤ t + 200 + 200 + 200 - (t + 200 + 200) := by omega
  have b4 : ¬ (10000 : Int) < t + 200 + 200 + 200 - (t + 200 + 200) := by omega
  simp only [a4, b4, Nat.ofNat_pos, and_false, if_true, if_false] at p4 s4 f4
  obtain ⟨d5, p5, s5, f5⟩ := tick_spec _ f5 (t + 200 + 200 + 200 + 200) d4
  rw [c5] at f5
  simp only [lt_self_iff_false, if_false] at f5
  simp only [runTicks, e0, d1, d2, d3, d4, if_true, f1, f2, f3, f4, f5]
  simp

/-- C6, witness for `first_event_fires_once`: first tick at clock reading
`1700000000000` with the detection lists of `scenarioFrames`. -/
theorem first_event_fires_once_witness :
    (9600 : Int) < 1700000000000 ∧
    runTicks initialState 1700000000000 scenarioFrames
      = [[], [], [Effect.pulse, Effect.ring, Effect.snapshot], [Effect.pulse], []] :=
  ⟨by decide, first_event_fires_once 1700000000000 scenarioFrames (by decide) (by decide)⟩

/-- C8 (toggle round trip): in every reachable state, two successive calls
of `toggleDetecting` restore `detectingRef` and `detecting`, and leave
`lastPlayedRef` and `lastSnapshotRef` as they were; one call flips
`detectingRef` and leaves both timestamps as they were.  Hence `playRing` at
any clock reading decides the same after the round trip as without it, and any
tick resumed afterwards produces the same effects and the same timestamps,
count and overlay. -/
theorem toggle_round_trip (s : PipelineState) (h : Reachable s) :
    (toggleDetecting (toggleDetecting s)).detectingRef = s.detectingRef ∧
    (toggleDetecting (toggleDetecting s)).detecting = s.detecting ∧
    (toggleDetecting (toggleDetecting s)).lastPlayedRef = s.lastPlayedRef ∧
    (toggleDetecting (toggleDetecting s)).lastSnapshotRef = s.lastSnapshotRef ∧
    (toggleDetecting s).detectingRef = (!s.detectingRef) ∧
    (toggleDetecting s).lastPlayedRef = s.lastPlayedRef ∧
    (toggleDetecting s).lastSnapshotRef = s.lastSnapshotRef ∧
    (∀ now : Int, (playRing (toggleDetecting (toggleDetecting s)) now).2 = (playRing s now).2) ∧
    (∀ (ps : List Prediction) (now ringNow : Int),
      (detectFrameResume (toggleDetecting (toggleDetecting s)) (.ok ps) now ringNow).effects
        = (detectFrameResume s (.ok ps) now ringNow).effects ∧
      (detectFrameResume (toggleDetecting (toggleDetecting s)) (.ok ps) now ringNow).state.lastPlayedRef
        = (detectFrameResume s (.ok ps) now ringNow).state.lastPlayedRef ∧
      (detectFrameResume (toggleDetecting (toggleDetecting s)) (.ok ps) now ringNow).state.lastSnapshotRef
        = (detectFrameResume s (.ok ps) now ringNow).state.lastSnapshotRef ∧
      (detectFrameResume (toggleDetecting (toggleDetecting s)) (.ok ps) now ringNow).state.personCount
        = (detectFrameResume s (.ok ps) now ringNow).state.personCount ∧
      (detectFrameResume (toggleDetecting (toggleDetecting s)) (.ok ps) now ringNow).state.overlay
        = (detectFrameResume s (.ok ps) now ringNow).state.overlay) := by
  have hs := reachable_sync s h
  have hd : (toggleDetecting (toggleDetecting s)).detectingRef = s.detectingRef := by
    simp [toggleDetecting, hs]
  refine ⟨hd, by simp [toggleDetecting], rfl, rfl, ?_, rfl, rfl, ?_, ?_⟩
  · simp [toggleDetecting, hs]
  · intro now
    rw [Bool.eq_iff_iff, playRing_fired_iff, playRing_fired_iff]
    exact Iff.rfl
  · intro ps now ringNow
    rw [detectFrameResume_ok, detectFrameResume_ok]
    by_cases hg : (targetEntries ps).length = 0 ∨ s.detectingRef = false
    · have hg2 : (targetEntries ps).length = 0 ∨
          (drawnState (toggleDetecting (toggleDetecting s)) ps).detectingRef = false :=
        hg.imp id (fun hf => hd.trans hf)
      rw [sideEffects_gate_closed (drawnState s ps) _ now ringNow hg,
        sideEffects_gate_closed (drawnState (toggleDetecting (toggleDetecting s)) ps) _
          now ringNow hg2]
      exact ⟨rfl, rfl, rfl, rfl, rfl⟩
    · have hc : 0 < (targetEntries ps).length := by
        rcases Nat.eq_zero_or_pos (targetEntries ps).length with h0 | h0
        · exact absurd (Or.inl h0) hg
        · exact h0
      have he : s.detectingRef = true := by
        cases hdr : s.detectingRef
        · exact absurd (Or.inr hdr) hg
        · rfl
      rw [sideEffects_gate_open (drawnState s ps) _ now ringNow hc he,
        sideEffects_gate_open (drawnState (toggleDetecting (toggleDetecting s)) ps) _
          now ringNow hc (hd.trans he)]
      exact ⟨rfl, rfl, rfl, rfl, rfl⟩

/-- C8, witness for `toggle_round_trip`: the state after a first qualifying
tick at clock reading `1700000000000`. -/
theorem toggle_round_trip_witness :
    Reachable afterFirstCapture ∧
    (toggleDetecting (toggleDetecting afterFirstCapture)).detectingRef = true ∧
    (toggleDetecting (toggleDetecting afterFirstCapture)).lastPlayedRef = 1700000000000 ∧
    (toggleDetecting (toggleDetecting afterFirstCapture)).lastSnapshotRef = 1700000000000 ∧
    (toggleDetecting afterFirstCapture).detectingRef = false :=
  have hr : Reachable afterFirstCapture :=
    ⟨[.tickStart true,
      .tickComplete (.ok [personAt 50 60 100 200]) 1700000000000 1700000000000], by decide⟩
  have ht := toggle_round_trip afterFirstCapture hr
  ⟨hr, ht.1.trans (by decide), ht.2.2.1.trans (by decide), ht.2.2.2.1.trans (by decide),
    ht.2.2.2.2.1.trans (by decide)⟩

end VisionDetector
